import Mathlib

/-!
# Files extension: root directories, scan scheduling, scan interval

A shallow embedding of `src/files/src/extension.cpp` (namespace `Files`,
class `Extension`).  Strings are lists of characters, the Qt message boxes
and signals a call produces are returned as a list of effects, and the
file system is a parameter.
-/

namespace Files

/-! ## Strings and effects -/

/-- A `QString`, as the sequence of its characters. -/
abbrev QString := List Char

/-- The member `QString::startsWith`. -/
def startsWith (s pre : QString) : Bool := pre.isPrefixOf s

/-- The icon of a `QMessageBox`. -/
inductive Icon where
  | Critical
  | Warning
  deriving DecidableEq, Repr

/-- What a call shows or emits: a modal `QMessageBox` (icon, title, text) or
the signal `rootDirsChanged` with its argument. -/
inductive Effect where
  | messageBox (icon : Icon) (title text : QString)
  | rootDirsChanged (dirs : List QString)
  deriving DecidableEq, Repr

/-- What `QFileInfo` answers for one path: Qt library state the code reads. -/
structure QFileInfo where
  absoluteFilePath : QString
  pathExists : Bool
  isDir : Bool

/-- The file system as the code sees it: the `QFileInfo` of every path and
`QStandardPaths::writableLocation(QStandardPaths::HomeLocation)`. -/
structure FileSystem where
  fileInfo : QString → QFileInfo
  homeLocation : QString

/-- The member `_rootDirs` after a call, and the effects of the call in order. -/
structure Outcome where
  rootDirs : List QString
  effects : List Effect
  deriving DecidableEq, Repr

/-! ## addDir, removeDir, restorePaths -/

/-- Text of the box at the existence check of `addDir`. -/
def msgDoesNotExist (absPath : QString) : QString :=
  absPath ++ " does not exist.".toList

/-- Text of the box at the type check of `addDir`. -/
def msgNotADirectory (absPath : QString) : QString :=
  absPath ++ " is not a directory.".toList

/-- Text of the box at the identical-path check of `addDir`. -/
def msgAlreadyIndexed (absPath : QString) : QString :=
  absPath ++ " has already been indexed.".toList

/-- Text of the box at the subdirectory check of `addDir`. -/
def msgSubdirectoryOf (absPath p : QString) : QString :=
  absPath ++ " is subdirectory of ".toList ++ p

/-- Text of the warning box in the superdirectory loop of `addDir`. -/
def msgWillBeRemoved (it absPath : QString) : QString :=
  it ++ " is subdirectory of ".toList ++ absPath ++ ". ".toList ++ it
    ++ " will be removed.".toList

/-- A box `QMessageBox(QMessageBox::Critical, "Error", text)`. -/
def critical (text : QString) : Effect :=
  Effect.messageBox Icon.Critical "Error".toList text

/-- A box `QMessageBox(QMessageBox::Warning, "Warning", text)`. -/
def warning (text : QString) : Effect :=
  Effect.messageBox Icon.Warning "Warning".toList text

/-- The test `absPath.startsWith(p + '/')` of the subdirectory loop. -/
def isSubdirOf (absPath p : QString) : Bool :=
  startsWith absPath (p ++ ['/'])

/-- The superdirectory loop of `addDir` (lines 217-222): walks `_rootDirs`
with an iterator, erases every entry that starts with `absPath + '/'` after
showing a warning for it, and steps over every other entry.  Returns the
entries that stay and the warnings shown, both in list order. -/
def eraseSubdirs (absPath : QString) : List QString → List QString × List Effect
  | [] => ([], [])
  | it :: rest =>
    let r := eraseSubdirs absPath rest
    if startsWith it (absPath ++ ['/']) then
      (r.1, warning (msgWillBeRemoved it absPath) :: r.2)
    else
      (it :: r.1, r.2)

/-- The slot `Extension::addDir` on the member `_rootDirs`. -/
def addDir (fs : FileSystem) (rootDirs : List QString) (dirPath : QString) : Outcome :=
  let fileInfo := fs.fileInfo dirPath
  let absPath := fileInfo.absoluteFilePath
  if !fileInfo.pathExists then
    ⟨rootDirs, [critical (msgDoesNotExist absPath)]⟩
  else if !fileInfo.isDir then
    ⟨rootDirs, [critical (msgNotADirectory absPath)]⟩
  else if rootDirs.contains absPath then
    ⟨rootDirs, [critical (msgAlreadyIndexed absPath)]⟩
  else
    match rootDirs.find? (fun p => isSubdirOf absPath p) with
    | some p => ⟨rootDirs, [critical (msgSubdirectoryOf absPath p)]⟩
    | none =>
      let r := eraseSubdirs absPath rootDirs
      let rootDirs' := r.1 ++ [absPath]
      ⟨rootDirs', r.2 ++ [Effect.rootDirsChanged rootDirs']⟩

/-- The slot `Extension::removeDir` on the member `_rootDirs`;
`removeAll` drops every occurrence. -/
def removeDir (fs : FileSystem) (rootDirs : List QString) (dirPath : QString) : Outcome :=
  let absPath := (fs.fileInfo dirPath).absoluteFilePath
  if !rootDirs.contains absPath then
    ⟨rootDirs, []⟩
  else
    let rootDirs' := rootDirs.filter (fun x => x != absPath)
    ⟨rootDirs', [Effect.rootDirsChanged rootDirs']⟩

/-- The slot `Extension::restorePaths`: clears `_rootDirs`, then calls `addDir`
with the home location. -/
def restorePaths (fs : FileSystem) (_rootDirs : List QString) : Outcome :=
  let cleared : List QString := []
  addDir fs cleared fs.homeLocation

/-- A file system in which every path is absolute already and names an
existing directory. -/
def allDirs : FileSystem :=
  ⟨fun p => ⟨p, true, true⟩, "/home/u".toList⟩

/-- A file system in which nothing exists. -/
def emptyFs : FileSystem :=
  ⟨fun p => ⟨p, false, false⟩, "/nonexistent".toList⟩

/-- The root lists a call announced to its observers with the signal
`rootDirsChanged`, in order.  The slots return `void`: a message box or this
signal is all a call tells the outside. -/
def Outcome.announced (o : Outcome) : List (List QString) :=
  o.effects.filterMap fun e =>
    match e with
    | Effect.rootDirsChanged dirs => some dirs
    | Effect.messageBox _ _ _ => none

/-- A call that was refused: it showed one error box and nothing else. -/
def Outcome.rejected (o : Outcome) : Bool :=
  match o.effects with
  | [Effect.messageBox Icon.Critical _ _] => true
  | _ => false

/-! ## Sequences of calls on the root set -/

/-- One call on the root set. -/
inductive RootOp where
  | add (dirPath : QString)
  | remove (dirPath : QString)
  deriving DecidableEq, Repr

/-- The root set after one call. -/
def applyOp (fs : FileSystem) (rootDirs : List QString) : RootOp → List QString
  | RootOp.add d => (addDir fs rootDirs d).rootDirs
  | RootOp.remove d => (removeDir fs rootDirs d).rootDirs

/-- The root set after a sequence of calls, starting from the empty set. -/
def runOps (fs : FileSystem) (ops : List RootOp) : List QString :=
  ops.foldl (applyOp fs) []

/-- The names between the slashes of a path, empty names dropped:
the directories one walks through from the file system root. -/
def components (p : QString) : List QString :=
  (p.splitOn '/').filter (fun c => c != [])

/-- The path relation of the data model, in the words of the specification (a
root that is a path-prefix of another, respecting directory boundaries), read
on directories: `p` lies strictly above `q` when the components of `p` are a
strict initial segment of those of `q`.  It is compared with the test the code
makes, `isSubdirOf`. -/
def specIsAncestorDir (p q : QString) : Bool :=
  (components p).isPrefixOf (components q) && (components p != components q)

/-- The same relation of the specification read on the text of the paths:
`p` is an initial segment of `q`, differs from it, and ends where a name of
`q` ends (at a slash of `p` or right before a slash of `q`).  It is compared
with the test the code makes, `isSubdirOf`. -/
def specIsBoundarySegment (p q : QString) : Bool :=
  p.isPrefixOf q && (p != q) && (p.getLast? == some '/' || (q.drop p.length).head? == some '/')

/-- No two entries equal, and no entry the parent text (`p + '/'`) of the
start of another: the overlap test as the code itself makes it. -/
def NoOverlap (rootDirs : List QString) : Prop :=
  rootDirs.Nodup ∧ ∀ p ∈ rootDirs, ∀ q ∈ rootDirs, isSubdirOf q p = false

/-! ## The interval timer -/

/-- Qt's `QTimer`, as far as the code uses it: the interval in milliseconds
(a C++ `int`) and whether the timer is running. -/
structure QTimer where
  interval : Int
  active : Bool
  deriving DecidableEq, Repr

/-- The member `QTimer::stop`. -/
def QTimer.stop (t : QTimer) : QTimer := { t with active := false }

/-- The member `QTimer::start()`: (re)starts with the stored interval; Qt refuses
to start a timer with a negative interval. -/
def QTimer.start (t : QTimer) : QTimer := { t with active := decide (0 ≤ t.interval) }

/-- The member `QTimer::start(int msec)`: stores the interval, then starts. -/
def QTimer.startMsec (_t : QTimer) (msec : Int) : QTimer :=
  { interval := msec, active := decide (0 ≤ msec) }

/-- Conversion of a 32-bit `unsigned int` value to `int` (two's complement). -/
def uintToInt (u : Nat) : Int :=
  if u % 2 ^ 32 < 2 ^ 31 then ((u % 2 ^ 32 : Nat) : Int) else ((u % 2 ^ 32 : Nat) : Int) - 2 ^ 32

/-- The product `minutes*60000` in 32-bit unsigned arithmetic. -/
def minutesToMsec (minutes : Nat) : Nat := (minutes * 60000) % 2 ^ 32

/-! ## Scan workers and the extension state -/

/-- Modelled from the spec: the class `ScanWorker` (scanworker.h and
scanworker.cpp are not among the sources).  A worker is one background scan
task over the root directories it was constructed with; `abort()` sets a flag
the task checks cooperatively; when the task has finished tearing down the
object is destroyed and its `destroyed` signal reaches every connection made
to it.  `destroyedToUpdateIndex` counts the connections
`connect(_scanWorker, &ScanWorker::destroyed, this, &Extension::updateIndex)`;
Qt keeps one connection per `connect` call and runs the slot once for each. -/
structure ScanWorker where
  id : Nat
  rootDirs : List QString
  abortRequested : Bool
  destroyedToUpdateIndex : Nat
  deriving DecidableEq, Repr

/-- The members of `Extension` the scan scheduling reads and writes, with the
thread pool and the event queue of the receiving thread made explicit.
`scanWorker` is the `QPointer<ScanWorker>`: the id of the worker it points
to, or `none` when null; `threadPool` holds every worker handed to
`QThreadPool::start` and not yet destroyed; `constructed` counts the workers
constructed so far; `queued` counts the invocations of `updateIndex` posted by
`destroyed` signals and not yet run. -/
structure Extension where
  rootDirs : List QString
  scanWorker : Option Nat
  intervalTimer : QTimer
  threadPool : List ScanWorker
  constructed : Nat
  queued : Nat
  deriving DecidableEq, Repr

/-- The member `ScanWorker::abort` followed by one more connection of
`destroyed` to `updateIndex`, on the worker with the given id. -/
def abortAndConnect (w : Nat) (x : ScanWorker) : ScanWorker :=
  if x.id = w then
    { x with abortRequested := true, destroyedToUpdateIndex := x.destroyedToUpdateIndex + 1 }
  else x

/-- The slot `Extension::updateIndex`. -/
def updateIndex (s : Extension) : Extension :=
  match s.scanWorker with
  | some w =>
    { s with threadPool := s.threadPool.map (abortAndConnect w) }
  | none =>
    let worker : ScanWorker := ⟨s.constructed, s.rootDirs, false, 0⟩
    { s with
      scanWorker := some worker.id
      threadPool := s.threadPool ++ [worker]
      constructed := s.constructed + 1
      intervalTimer := s.intervalTimer.start }

/-- Teardown of the worker with id `w`: the object leaves the thread pool, a
`QPointer` to it becomes null, and each connection of its `destroyed` signal
posts one invocation of `updateIndex`.  Nothing happens when no such worker is
live. -/
def destroyWorker (s : Extension) (w : Nat) : Extension :=
  match s.threadPool.find? (fun x => x.id == w) with
  | none => s
  | some x =>
    { s with
      threadPool := s.threadPool.filter (fun y => y.id != w)
      scanWorker := if s.scanWorker = some w then none else s.scanWorker
      queued := s.queued + x.destroyedToUpdateIndex }

/-- One posted invocation of `updateIndex` is run, if there is one. -/
def deliverQueued (s : Extension) : Extension :=
  if s.queued = 0 then s else updateIndex { s with queued := s.queued - 1 }

/-- The slot `Extension::setScanInterval(uint minutes)`. -/
def setScanInterval (s : Extension) (minutes : Nat) : Extension :=
  if minutes % 2 ^ 32 = 0 then
    { s with intervalTimer := s.intervalTimer.stop }
  else
    { s with intervalTimer := s.intervalTimer.startMsec (uintToInt (minutesToMsec minutes)) }

/-- The value `_intervalTimer.interval()/60000` that `finalize` stores as the
scan interval in minutes (C++ integer division truncates toward zero). -/
def storedScanInterval (s : Extension) : Int :=
  Int.tdiv s.intervalTimer.interval 60000

/-- The events of the scan scheduling. -/
inductive Event where
  | updateRequest
  | workerDestroyed (w : Nat)
  | runQueued
  deriving DecidableEq, Repr

/-- One event. -/
def step (s : Extension) : Event → Extension
  | Event.updateRequest => updateIndex s
  | Event.workerDestroyed w => destroyWorker s w
  | Event.runQueued => deliverQueued s

/-- A sequence of events. -/
def run (s : Extension) (evs : List Event) : Extension :=
  evs.foldl step s

/-- The extension right after construction and loading of its settings: no
worker, nothing posted. -/
def initial (rootDirs : List QString) (timer : QTimer) : Extension :=
  ⟨rootDirs, none, timer, [], 0, 0⟩

/-- One scan is started, `k` further requests arrive while it runs, the
worker tears down, and the invocations its `destroyed` signal posted are
run. -/
def restartScenario (k : Nat) : List Event :=
  Event.updateRequest :: (List.replicate k Event.updateRequest
    ++ Event.workerDestroyed 0 :: List.replicate k Event.runQueued)

/-- The pointer `_scanWorker` and the thread pool agree: both empty, or the
pool holds exactly the worker the pointer names. -/
def PointerTracksPool (s : Extension) : Prop :=
  (s.scanWorker = none ∧ s.threadPool = [])
    ∨ ∃ w : ScanWorker, s.scanWorker = some w.id ∧ s.threadPool = [w]

/-! ## Lemmas on the loops of addDir -/

theorem isSubdirOf_iff (absPath p : QString) :
    isSubdirOf absPath p = true ↔ (p ++ ['/']) <+: absPath := by
  simp [isSubdirOf, startsWith, List.isPrefixOf_iff_prefix]

theorem isSubdirOf_eq_false_iff (absPath p : QString) :
    isSubdirOf absPath p = false ↔ ¬ (p ++ ['/']) <+: absPath := by
  rw [← isSubdirOf_iff]; simp

theorem eraseSubdirs_fst (absPath : QString) (rootDirs : List QString) :
    (eraseSubdirs absPath rootDirs).1
      = rootDirs.filter (fun it => !isSubdirOf it absPath) := by
  induction rootDirs with
  | nil => rfl
  | cons it rest ih =>
    by_cases h : isSubdirOf it absPath = true
    · have h' : startsWith it (absPath ++ ['/']) = true := h
      simp [eraseSubdirs, h', h, ih]
    · have h' : ¬ startsWith it (absPath ++ ['/']) = true := h
      simp [eraseSubdirs, h', h, ih]

theorem eraseSubdirs_snd (absPath : QString) (rootDirs : List QString) :
    (eraseSubdirs absPath rootDirs).2
      = (rootDirs.filter (fun it => isSubdirOf it absPath)).map
          (fun it => warning (msgWillBeRemoved it absPath)) := by
  induction rootDirs with
  | nil => rfl
  | cons it rest ih =>
    by_cases h : isSubdirOf it absPath = true
    · have h' : startsWith it (absPath ++ ['/']) = true := h
      simp [eraseSubdirs, h', h, ih]
    · have h' : ¬ startsWith it (absPath ++ ['/']) = true := h
      simp [eraseSubdirs, h', h, ih]

theorem addDir_of_not_exists (fs : FileSystem) (rootDirs : List QString) (dirPath : QString)
    (hex : (fs.fileInfo dirPath).pathExists = false) :
    addDir fs rootDirs dirPath
      = ⟨rootDirs, [critical (msgDoesNotExist (fs.fileInfo dirPath).absoluteFilePath)]⟩ := by
  simp [addDir, hex]

theorem addDir_of_not_dir (fs : FileSystem) (rootDirs : List QString) (dirPath : QString)
    (hex : (fs.fileInfo dirPath).pathExists = true)
    (hdir : (fs.fileInfo dirPath).isDir = false) :
    addDir fs rootDirs dirPath
      = ⟨rootDirs, [critical (msgNotADirectory (fs.fileInfo dirPath).absoluteFilePath)]⟩ := by
  simp [addDir, hex, hdir]

theorem addDir_of_mem (fs : FileSystem) (rootDirs : List QString) (dirPath : QString)
    (hex : (fs.fileInfo dirPath).pathExists = true)
    (hdir : (fs.fileInfo dirPath).isDir = true)
    (hmem : (fs.fileInfo dirPath).absoluteFilePath ∈ rootDirs) :
    addDir fs rootDirs dirPath
      = ⟨rootDirs, [critical (msgAlreadyIndexed (fs.fileInfo dirPath).absoluteFilePath)]⟩ := by
  simp [addDir, hex, hdir, hmem]

theorem addDir_of_subdir (fs : FileSystem) (rootDirs : List QString) (dirPath p : QString)
    (hex : (fs.fileInfo dirPath).pathExists = true)
    (hdir : (fs.fileInfo dirPath).isDir = true)
    (hmem : (fs.fileInfo dirPath).absoluteFilePath ∉ rootDirs)
    (hfind : rootDirs.find? (fun p => isSubdirOf (fs.fileInfo dirPath).absoluteFilePath p)
      = some p) :
    addDir fs rootDirs dirPath
      = ⟨rootDirs, [critical (msgSubdirectoryOf (fs.fileInfo dirPath).absoluteFilePath p)]⟩ := by
  simp [addDir, hex, hdir, hmem, hfind]

theorem addDir_of_accepted (fs : FileSystem) (rootDirs : List QString) (dirPath : QString)
    (hex : (fs.fileInfo dirPath).pathExists = true)
    (hdir : (fs.fileInfo dirPath).isDir = true)
    (hmem : (fs.fileInfo dirPath).absoluteFilePath ∉ rootDirs)
    (hfind : rootDirs.find? (fun p => isSubdirOf (fs.fileInfo dirPath).absoluteFilePath p)
      = none) :
    addDir fs rootDirs dirPath
      = ⟨rootDirs.filter (fun it => !isSubdirOf it (fs.fileInfo dirPath).absoluteFilePath)
            ++ [(fs.fileInfo dirPath).absoluteFilePath],
         (rootDirs.filter (fun it => isSubdirOf it (fs.fileInfo dirPath).absoluteFilePath)).map
            (fun it => warning (msgWillBeRemoved it (fs.fileInfo dirPath).absoluteFilePath))
          ++ [Effect.rootDirsChanged
            (rootDirs.filter (fun it => !isSubdirOf it (fs.fileInfo dirPath).absoluteFilePath)
              ++ [(fs.fileInfo dirPath).absoluteFilePath])]⟩ := by
  simp [addDir, hex, hdir, hmem, hfind, eraseSubdirs_fst, eraseSubdirs_snd]

theorem find_subdir_eq_none_iff (absPath : QString) (rootDirs : List QString) :
    rootDirs.find? (fun p => isSubdirOf absPath p) = none
      ↔ ∀ p ∈ rootDirs, ¬ (p ++ ['/']) <+: absPath := by
  simp [List.find?_eq_none, isSubdirOf_iff]

theorem find_subdir_some (absPath p : QString) (rootDirs : List QString)
    (h : rootDirs.find? (fun p => isSubdirOf absPath p) = some p) :
    p ∈ rootDirs ∧ (p ++ ['/']) <+: absPath := by
  refine ⟨List.mem_of_find?_eq_some h, ?_⟩
  have := List.find?_some h
  exact (isSubdirOf_iff absPath p).1 this

/-! ## addDir: the four checks -/

/-- C2: when the absolute form of the path names an existing directory that is
already in the root set, `addDir` shows the "has already been indexed" error,
leaves the root set as it was and emits no `rootDirsChanged`.  Adding the same
path twice in a row: the second call is refused and leaves the root set of the
first call as it is, and when the first call was the one that put the path in
(it announced a new root set) the second is refused as a duplicate. -/
theorem addDir_duplicate_rejected (fs : FileSystem) (rootDirs : List QString)
    (dirPath : QString)
    (hex : (fs.fileInfo dirPath).pathExists = true)
    (hdir : (fs.fileInfo dirPath).isDir = true) :
    ((fs.fileInfo dirPath).absoluteFilePath ∈ rootDirs →
      addDir fs rootDirs dirPath
          = ⟨rootDirs, [critical (msgAlreadyIndexed (fs.fileInfo dirPath).absoluteFilePath)]⟩
        ∧ (addDir fs rootDirs dirPath).announced = [])
    ∧ (addDir fs (addDir fs rootDirs dirPath).rootDirs dirPath).rootDirs
        = (addDir fs rootDirs dirPath).rootDirs
    ∧ (addDir fs (addDir fs rootDirs dirPath).rootDirs dirPath).rejected = true
    ∧ (addDir fs (addDir fs rootDirs dirPath).rootDirs dirPath).announced = []
    ∧ ((addDir fs rootDirs dirPath).announced ≠ [] →
        addDir fs (addDir fs rootDirs dirPath).rootDirs dirPath
          = ⟨(addDir fs rootDirs dirPath).rootDirs,
             [critical (msgAlreadyIndexed (fs.fileInfo dirPath).absoluteFilePath)]⟩) := by
  refine ⟨fun hmem => ?_, ?_⟩
  · rw [addDir_of_mem fs rootDirs dirPath hex hdir hmem]
    exact ⟨rfl, rfl⟩
  · by_cases hmem : (fs.fileInfo dirPath).absoluteFilePath ∈ rootDirs
    · have h1 := addDir_of_mem fs rootDirs dirPath hex hdir hmem
      rw [h1]; dsimp only; rw [h1]
      exact ⟨rfl, rfl, rfl, fun _ => rfl⟩
    · cases hfind : rootDirs.find?
          (fun p => isSubdirOf (fs.fileInfo dirPath).absoluteFilePath p) with
      | some p =>
        have h1 := addDir_of_subdir fs rootDirs dirPath p hex hdir hmem hfind
        rw [h1]; dsimp only; rw [h1]
        refine ⟨rfl, rfl, rfl, fun h => ?_⟩
        exact absurd rfl h
      | none =>
        have h1 := addDir_of_accepted fs rootDirs dirPath hex hdir hmem hfind
        have hin : (fs.fileInfo dirPath).absoluteFilePath ∈ (addDir fs rootDirs dirPath).rootDirs := by
          rw [h1]; simp
        have h2 := addDir_of_mem fs _ dirPath hex hdir hin
        rw [h2]
        exact ⟨rfl, rfl, rfl, fun _ => rfl⟩

/-- Witness of C2: `/home` is a root already and is added again. -/
theorem addDir_duplicate_rejected_witness :
    (allDirs.fileInfo "/home".toList).pathExists = true
    ∧ (allDirs.fileInfo "/home".toList).isDir = true
    ∧ (allDirs.fileInfo "/home".toList).absoluteFilePath ∈ ["/srv".toList, "/home".toList]
    ∧ addDir allDirs ["/srv".toList, "/home".toList] "/home".toList
        = ⟨["/srv".toList, "/home".toList], [critical (msgAlreadyIndexed "/home".toList)]⟩ :=
  ⟨rfl, rfl, by decide,
    ((addDir_duplicate_rejected allDirs ["/srv".toList, "/home".toList] "/home".toList
      rfl rfl).1 (by decide)).1⟩

/-- C3: for an existing directory whose absolute path `a` is not in the root
set, `addDir` shows the "is subdirectory of" error exactly when `a` starts with
some root followed by a slash; the call then leaves the root set as it was and
emits no `rootDirsChanged`.  With roots [/home], adding /home/u is refused so;
with roots [/a], adding /ab is accepted. -/
theorem addDir_subdirectory_iff (fs : FileSystem) (rootDirs : List QString)
    (dirPath : QString)
    (hex : (fs.fileInfo dirPath).pathExists = true)
    (hdir : (fs.fileInfo dirPath).isDir = true)
    (hmem : (fs.fileInfo dirPath).absoluteFilePath ∉ rootDirs) :
    ((∃ p, (addDir fs rootDirs dirPath).effects
          = [critical (msgSubdirectoryOf (fs.fileInfo dirPath).absoluteFilePath p)])
      ↔ ∃ p ∈ rootDirs, (p ++ ['/']) <+: (fs.fileInfo dirPath).absoluteFilePath)
    ∧ ((∃ p ∈ rootDirs, (p ++ ['/']) <+: (fs.fileInfo dirPath).absoluteFilePath) →
        (addDir fs rootDirs dirPath).rootDirs = rootDirs
        ∧ (addDir fs rootDirs dirPath).announced = [])
    ∧ addDir allDirs ["/home".toList] "/home/u".toList
        = ⟨["/home".toList], [critical (msgSubdirectoryOf "/home/u".toList "/home".toList)]⟩
    ∧ addDir allDirs ["/a".toList] "/ab".toList
        = ⟨["/a".toList, "/ab".toList],
           [Effect.rootDirsChanged ["/a".toList, "/ab".toList]]⟩ := by
  refine ⟨?_, ?_, by decide, by decide⟩
  · cases hfind : rootDirs.find?
        (fun p => isSubdirOf (fs.fileInfo dirPath).absoluteFilePath p) with
    | some p =>
      have h1 := addDir_of_subdir fs rootDirs dirPath p hex hdir hmem hfind
      have hp := find_subdir_some _ _ _ hfind
      constructor
      · intro _
        exact ⟨p, hp.1, hp.2⟩
      · intro _
        exact ⟨p, by rw [h1]⟩
    | none =>
      have h1 := addDir_of_accepted fs rootDirs dirPath hex hdir hmem hfind
      have hnone := (find_subdir_eq_none_iff _ _).1 hfind
      constructor
      · rintro ⟨p, hp⟩
        rw [h1] at hp
        have hlast := congrArg List.getLast? hp
        simp [critical] at hlast
      · rintro ⟨p, hp, hpre⟩
        exact absurd hpre (hnone p hp)
  · rintro ⟨p, hp, hpre⟩
    cases hfind : rootDirs.find?
        (fun p => isSubdirOf (fs.fileInfo dirPath).absoluteFilePath p) with
    | some q =>
      rw [addDir_of_subdir fs rootDirs dirPath q hex hdir hmem hfind]
      exact ⟨rfl, rfl⟩
    | none =>
      exact absurd hpre ((find_subdir_eq_none_iff _ _).1 hfind p hp)

/-- Witness of C3: with roots [/home], /home/u starts with /home followed by a
slash and is refused as a subdirectory. -/
theorem addDir_subdirectory_iff_witness :
    (allDirs.fileInfo "/home/u".toList).absoluteFilePath ∉ ["/home".toList]
    ∧ (∃ p, (addDir allDirs ["/home".toList] "/home/u".toList).effects
          = [critical (msgSubdirectoryOf
              (allDirs.fileInfo "/home/u".toList).absoluteFilePath p)]) :=
  ⟨by decide,
    (addDir_subdirectory_iff allDirs ["/home".toList] "/home/u".toList rfl rfl
      (by decide)).1.2 ⟨"/home".toList, by decide, by decide⟩⟩

/-- What the superdirectory loop does for an existing directory whose absolute
path `a` passes the duplicate and the subdirectory check: `addDir` leaves the
roots that do not start with `a` followed by a slash, in their order, followed
by `a`; it shows one warning for each root it dropped, in order, and then
emits `rootDirsChanged` with the resulting root set. -/
theorem addDir_prunes_subdirs (fs : FileSystem) (rootDirs : List QString)
    (dirPath : QString)
    (hex : (fs.fileInfo dirPath).pathExists = true)
    (hdir : (fs.fileInfo dirPath).isDir = true)
    (hmem : (fs.fileInfo dirPath).absoluteFilePath ∉ rootDirs)
    (hsub : ∀ p ∈ rootDirs, ¬ (p ++ ['/']) <+: (fs.fileInfo dirPath).absoluteFilePath) :
    addDir fs rootDirs dirPath
      = ⟨rootDirs.filter
            (fun x => decide (¬ ((fs.fileInfo dirPath).absoluteFilePath ++ ['/']) <+: x))
          ++ [(fs.fileInfo dirPath).absoluteFilePath],
         (rootDirs.filter
            (fun x => decide (((fs.fileInfo dirPath).absoluteFilePath ++ ['/']) <+: x))).map
            (fun x => warning (msgWillBeRemoved x (fs.fileInfo dirPath).absoluteFilePath))
          ++ [Effect.rootDirsChanged
            (rootDirs.filter
                (fun x => decide (¬ ((fs.fileInfo dirPath).absoluteFilePath ++ ['/']) <+: x))
              ++ [(fs.fileInfo dirPath).absoluteFilePath])]⟩ := by
  have hfind := (find_subdir_eq_none_iff _ _).2 hsub
  rw [addDir_of_accepted fs rootDirs dirPath hex hdir hmem hfind]
  have e1 : (fun it => !isSubdirOf it (fs.fileInfo dirPath).absoluteFilePath)
      = (fun x => decide (¬ ((fs.fileInfo dirPath).absoluteFilePath ++ ['/']) <+: x)) := by
    funext x
    by_cases h : isSubdirOf x (fs.fileInfo dirPath).absoluteFilePath = true
    · simp [h, (isSubdirOf_iff _ _).1 h]
    · have h' : isSubdirOf x (fs.fileInfo dirPath).absoluteFilePath = false := by simpa using h
      simp [h', (isSubdirOf_eq_false_iff _ _).1 h']
  have e2 : (fun it => isSubdirOf it (fs.fileInfo dirPath).absoluteFilePath)
      = (fun x => decide (((fs.fileInfo dirPath).absoluteFilePath ++ ['/']) <+: x)) := by
    funext x
    by_cases h : isSubdirOf x (fs.fileInfo dirPath).absoluteFilePath = true
    · simp [h, (isSubdirOf_iff _ _).1 h]
    · have h' : isSubdirOf x (fs.fileInfo dirPath).absoluteFilePath = false := by simpa using h
      simp [h', (isSubdirOf_eq_false_iff _ _).1 h']
  rw [e1, e2]

/-- An instance of the superdirectory loop: roots [/srv, /home/u, /home/v],
adding /home drops /home/u and /home/v with one warning each and gives
[/srv, /home]. -/
theorem addDir_prunes_subdirs_witness :
    (allDirs.fileInfo "/home".toList).absoluteFilePath
        ∉ ["/srv".toList, "/home/u".toList, "/home/v".toList]
    ∧ (∀ p ∈ ["/srv".toList, "/home/u".toList, "/home/v".toList],
        ¬ (p ++ ['/']) <+: (allDirs.fileInfo "/home".toList).absoluteFilePath)
    ∧ addDir allDirs ["/srv".toList, "/home/u".toList, "/home/v".toList] "/home".toList
      = ⟨["/srv".toList, "/home".toList],
         [warning (msgWillBeRemoved "/home/u".toList "/home".toList),
          warning (msgWillBeRemoved "/home/v".toList "/home".toList),
          Effect.rootDirsChanged ["/srv".toList, "/home".toList]]⟩ :=
  ⟨by decide, by decide,
    (addDir_prunes_subdirs allDirs ["/srv".toList, "/home/u".toList, "/home/v".toList]
      "/home".toList rfl rfl (by decide) (by decide)).trans (by decide)⟩

/-- C5 as stated fails: `removeDir` is a `void` slot and reports neither
"removed" nor "not removed".  With a path that is not a root (/home with roots
[/srv]) the call returns the root set as it was and has no effect at all: no
box, no signal, nothing that says "not removed".  With a path that is a root
the `rootDirsChanged` signal is the only thing the call gives out. -/
theorem removeDir_reports_nothing :
    removeDir allDirs ["/srv".toList] "/home".toList = ⟨["/srv".toList], []⟩
    ∧ (removeDir allDirs ["/srv".toList] "/home".toList).effects = []
    ∧ (removeDir allDirs ["/srv".toList, "/home".toList] "/home".toList).effects
        = [Effect.rootDirsChanged ["/srv".toList]] := by
  decide

/-- C5, amended: `removeDir` returns nothing.  With a path whose absolute form
`a` is not in the root set it changes nothing and has no effect; with `a` in
the root set it leaves the roots other than `a`, in their order, and announces
exactly that list with `rootDirsChanged`, its only effect: `a` is gone, every
other root is kept. -/
theorem removeDir_contract (fs : FileSystem) (rootDirs : List QString) (dirPath : QString) :
    ((fs.fileInfo dirPath).absoluteFilePath ∉ rootDirs →
      removeDir fs rootDirs dirPath = ⟨rootDirs, []⟩
      ∧ (removeDir fs rootDirs dirPath).announced = [])
    ∧ ((fs.fileInfo dirPath).absoluteFilePath ∈ rootDirs →
      removeDir fs rootDirs dirPath
        = ⟨rootDirs.filter (fun x => decide (x ≠ (fs.fileInfo dirPath).absoluteFilePath)),
           [Effect.rootDirsChanged
            (rootDirs.filter (fun x => decide (x ≠ (fs.fileInfo dirPath).absoluteFilePath)))]⟩
      ∧ (removeDir fs rootDirs dirPath).announced = [(removeDir fs rootDirs dirPath).rootDirs]
      ∧ (fs.fileInfo dirPath).absoluteFilePath ∉ (removeDir fs rootDirs dirPath).rootDirs
      ∧ (∀ x ∈ rootDirs, x ≠ (fs.fileInfo dirPath).absoluteFilePath →
          x ∈ (removeDir fs rootDirs dirPath).rootDirs)
      ∧ List.Sublist (removeDir fs rootDirs dirPath).rootDirs rootDirs) := by
  constructor
  · intro h
    have : removeDir fs rootDirs dirPath = ⟨rootDirs, []⟩ := by simp [removeDir, h]
    rw [this]; exact ⟨rfl, rfl⟩
  · intro h
    have e : removeDir fs rootDirs dirPath
        = ⟨rootDirs.filter (fun x => decide (x ≠ (fs.fileInfo dirPath).absoluteFilePath)),
           [Effect.rootDirsChanged
            (rootDirs.filter (fun x => decide (x ≠ (fs.fileInfo dirPath).absoluteFilePath)))]⟩ := by
      have ef : (fun x : QString => x != (fs.fileInfo dirPath).absoluteFilePath)
          = (fun x => decide (x ≠ (fs.fileInfo dirPath).absoluteFilePath)) := by
        funext x
        by_cases hx : x = (fs.fileInfo dirPath).absoluteFilePath <;> simp [hx]
      simp only [removeDir, ef]
      simp [h]
    rw [e]
    refine ⟨rfl, rfl, ?_, ?_, ?_⟩
    · simp
    · intro x hx hne
      simp [hx, hne]
    · exact List.filter_sublist _

/-- Witness of C5, amended: removing /home from [/srv, /home, /opt]. -/
theorem removeDir_contract_witness :
    (allDirs.fileInfo "/home".toList).absoluteFilePath
        ∈ ["/srv".toList, "/home".toList, "/opt".toList]
    ∧ removeDir allDirs ["/srv".toList, "/home".toList, "/opt".toList] "/home".toList
      = ⟨["/srv".toList, "/opt".toList],
         [Effect.rootDirsChanged ["/srv".toList, "/opt".toList]]⟩ :=
  ⟨by decide,
    ((removeDir_contract allDirs ["/srv".toList, "/home".toList, "/opt".toList]
      "/home".toList).2 (by decide)).1.trans (by decide)⟩

theorem accepted_not_rejected (ws : List Effect) (dirs : List QString) :
    Outcome.rejected ⟨dirs, ws ++ [Effect.rootDirsChanged dirs]⟩ = false := by
  cases ws with
  | nil => rfl
  | cons w ws =>
    cases ws with
    | nil => simp [Outcome.rejected]
    | cons w' ws => simp [Outcome.rejected]

/-- C10: the checks of `addDir` decide in the order existence, directory,
duplicate, subdirectory: the error shown is that of the first check that
fails.  A call is refused exactly when one of the four checks fails, and a
refused call leaves the root set as it was, so the superdirectory loop has
dropped nothing.  A path that is a root already is refused and the root set
stays as it was, and a path that occurred at most once occurs at most once
afterwards. -/
theorem addDir_check_order (fs : FileSystem) (rootDirs : List QString) (dirPath : QString) :
    ((fs.fileInfo dirPath).pathExists = false →
      addDir fs rootDirs dirPath
        = ⟨rootDirs, [critical (msgDoesNotExist (fs.fileInfo dirPath).absoluteFilePath)]⟩)
    ∧ ((fs.fileInfo dirPath).pathExists = true → (fs.fileInfo dirPath).isDir = false →
      addDir fs rootDirs dirPath
        = ⟨rootDirs, [critical (msgNotADirectory (fs.fileInfo dirPath).absoluteFilePath)]⟩)
    ∧ ((fs.fileInfo dirPath).pathExists = true → (fs.fileInfo dirPath).isDir = true →
      (fs.fileInfo dirPath).absoluteFilePath ∈ rootDirs →
      addDir fs rootDirs dirPath
        = ⟨rootDirs, [critical (msgAlreadyIndexed (fs.fileInfo dirPath).absoluteFilePath)]⟩)
    ∧ ((fs.fileInfo dirPath).pathExists = true → (fs.fileInfo dirPath).isDir = true →
      (fs.fileInfo dirPath).absoluteFilePath ∉ rootDirs →
      (∃ p ∈ rootDirs, (p ++ ['/']) <+: (fs.fileInfo dirPath).absoluteFilePath) →
      ∃ p ∈ rootDirs, (p ++ ['/']) <+: (fs.fileInfo dirPath).absoluteFilePath
        ∧ addDir fs rootDirs dirPath
          = ⟨rootDirs,
             [critical (msgSubdirectoryOf (fs.fileInfo dirPath).absoluteFilePath p)]⟩)
    ∧ ((addDir fs rootDirs dirPath).rejected = true ↔
        ¬ ((fs.fileInfo dirPath).pathExists = true ∧ (fs.fileInfo dirPath).isDir = true
          ∧ (fs.fileInfo dirPath).absoluteFilePath ∉ rootDirs
          ∧ ∀ p ∈ rootDirs, ¬ (p ++ ['/']) <+: (fs.fileInfo dirPath).absoluteFilePath))
    ∧ ((addDir fs rootDirs dirPath).rejected = true →
        (addDir fs rootDirs dirPath).rootDirs = rootDirs
        ∧ (addDir fs rootDirs dirPath).announced = [])
    ∧ ((fs.fileInfo dirPath).absoluteFilePath ∈ rootDirs →
        (addDir fs rootDirs dirPath).rejected = true
        ∧ (addDir fs rootDirs dirPath).rootDirs = rootDirs)
    ∧ (rootDirs.count (fs.fileInfo dirPath).absoluteFilePath ≤ 1 →
        (addDir fs rootDirs dirPath).rootDirs.count (fs.fileInfo dirPath).absoluteFilePath
          ≤ 1) := by
  have key : ((addDir fs rootDirs dirPath).rejected = true
        ∧ (addDir fs rootDirs dirPath).rootDirs = rootDirs
        ∧ (addDir fs rootDirs dirPath).announced = []
        ∧ ¬ ((fs.fileInfo dirPath).pathExists = true ∧ (fs.fileInfo dirPath).isDir = true
          ∧ (fs.fileInfo dirPath).absoluteFilePath ∉ rootDirs
          ∧ ∀ p ∈ rootDirs, ¬ (p ++ ['/']) <+: (fs.fileInfo dirPath).absoluteFilePath))
      ∨ ((addDir fs rootDirs dirPath).rejected = false
        ∧ ((fs.fileInfo dirPath).pathExists = true ∧ (fs.fileInfo dirPath).isDir = true
          ∧ (fs.fileInfo dirPath).absoluteFilePath ∉ rootDirs
          ∧ ∀ p ∈ rootDirs, ¬ (p ++ ['/']) <+: (fs.fileInfo dirPath).absoluteFilePath)
        ∧ (addDir fs rootDirs dirPath).rootDirs.count (fs.fileInfo dirPath).absoluteFilePath
          = 1) := by
    cases hex : (fs.fileInfo dirPath).pathExists with
    | false =>
      left
      rw [addDir_of_not_exists fs rootDirs dirPath hex]
      exact ⟨rfl, rfl, rfl, by simp⟩
    | true =>
      cases hdir : (fs.fileInfo dirPath).isDir with
      | false =>
        left
        rw [addDir_of_not_dir fs rootDirs dirPath hex hdir]
        exact ⟨rfl, rfl, rfl, by simp⟩
      | true =>
        by_cases hmem : (fs.fileInfo dirPath).absoluteFilePath ∈ rootDirs
        · left
          rw [addDir_of_mem fs rootDirs dirPath hex hdir hmem]
          exact ⟨rfl, rfl, rfl, by simp [hmem]⟩
        · cases hfind : rootDirs.find?
              (fun p => isSubdirOf (fs.fileInfo dirPath).absoluteFilePath p) with
          | some p =>
            left
            rw [addDir_of_subdir fs rootDirs dirPath p hex hdir hmem hfind]
            have hp := find_subdir_some _ _ _ hfind
            refine ⟨rfl, rfl, rfl, ?_⟩
            rintro ⟨_, _, _, hall⟩
            exact hall p hp.1 hp.2
          | none =>
            right
            have hnone := (find_subdir_eq_none_iff _ _).1 hfind
            rw [addDir_of_accepted fs rootDirs dirPath hex hdir hmem hfind]
            refine ⟨accepted_not_rejected _ _, ⟨rfl, rfl, hmem, hnone⟩, ?_⟩
            have h0 : List.count (fs.fileInfo dirPath).absoluteFilePath
                (rootDirs.filter
                  (fun it => !isSubdirOf it (fs.fileInfo dirPath).absoluteFilePath)) = 0 :=
              List.count_eq_zero.2 (fun h => hmem (List.mem_of_mem_filter h))
            simp [List.count_append, h0]
  refine ⟨addDir_of_not_exists fs rootDirs dirPath, addDir_of_not_dir fs rootDirs dirPath,
    addDir_of_mem fs rootDirs dirPath, ?_, ?_, ?_, ?_, ?_⟩
  · rintro hex hdir hmem ⟨p, hp, hpre⟩
    cases hfind : rootDirs.find?
        (fun p => isSubdirOf (fs.fileInfo dirPath).absoluteFilePath p) with
    | some q =>
      have hq := find_subdir_some _ _ _ hfind
      exact ⟨q, hq.1, hq.2, addDir_of_subdir fs rootDirs dirPath q hex hdir hmem hfind⟩
    | none =>
      exact absurd hpre ((find_subdir_eq_none_iff _ _).1 hfind p hp)
  · rcases key with ⟨hr, _, _, hn⟩ | ⟨hr, hc, _⟩
    · exact ⟨fun _ => hn, fun _ => hr⟩
    · exact ⟨fun h => absurd (hr ▸ h) (by simp), fun h => absurd hc h⟩
  · rcases key with ⟨_, h1, h2, _⟩ | ⟨hr, _, _⟩
    · exact fun _ => ⟨h1, h2⟩
    · exact fun h => absurd (hr ▸ h) (by simp)
  · intro hmem
    rcases key with ⟨hr, h1, _, _⟩ | ⟨_, hc, _⟩
    · exact ⟨hr, h1⟩
    · exact absurd hmem hc.2.2.1
  · intro hcount
    rcases key with ⟨_, h1, _, _⟩ | ⟨_, _, h1⟩
    · rw [h1]; exact hcount
    · rw [h1]

/-- Witness of C10: /home is a root and /home/u a further root; adding /home
again is refused as a duplicate although /home/u starts with /home and a
slash, and nothing is dropped. -/
theorem addDir_check_order_witness :
    (allDirs.fileInfo "/home".toList).absoluteFilePath
        ∈ ["/home".toList, "/home/u".toList]
    ∧ (addDir allDirs ["/home".toList, "/home/u".toList] "/home".toList).rejected = true
    ∧ (addDir allDirs ["/home".toList, "/home/u".toList] "/home".toList).rootDirs
        = ["/home".toList, "/home/u".toList] :=
  ⟨by decide,
    (addDir_check_order allDirs ["/home".toList, "/home/u".toList]
      "/home".toList).2.2.2.2.2.2.1 (by decide)⟩

/-! ## restorePaths -/

/-- C6, as the claim states it, fails: when the home location does not exist
`restorePaths` leaves the root set empty, shows the "does not exist" error and
announces nothing. -/
theorem restorePaths_home_missing :
    restorePaths emptyFs ["/srv".toList]
        = ⟨[], [critical (msgDoesNotExist "/nonexistent".toList)]⟩
    ∧ (restorePaths emptyFs ["/srv".toList]).rootDirs ≠ [emptyFs.homeLocation]
    ∧ (restorePaths emptyFs ["/srv".toList]).announced = [] := by
  decide

/-- C6, amended: when the home location exists and is a directory,
`restorePaths` leaves exactly the one-element root set of its absolute path and
announces that list, whatever the root set was before; when it does not exist
or is not a directory the call is refused by `addDir`, the root set is left
empty and nothing is announced.  In both cases the result does not depend on
the roots from before the call. -/
theorem restorePaths_sole_home (fs : FileSystem) (rootDirs : List QString) :
    ((fs.fileInfo fs.homeLocation).pathExists = true →
      (fs.fileInfo fs.homeLocation).isDir = true →
      restorePaths fs rootDirs
        = ⟨[(fs.fileInfo fs.homeLocation).absoluteFilePath],
           [Effect.rootDirsChanged [(fs.fileInfo fs.homeLocation).absoluteFilePath]]⟩)
    ∧ (¬ ((fs.fileInfo fs.homeLocation).pathExists = true
          ∧ (fs.fileInfo fs.homeLocation).isDir = true) →
      (restorePaths fs rootDirs).rootDirs = []
      ∧ (restorePaths fs rootDirs).rejected = true
      ∧ (restorePaths fs rootDirs).announced = [])
    ∧ restorePaths fs rootDirs = restorePaths fs [] := by
  refine ⟨fun hex hdir => ?_, fun h => ?_, rfl⟩
  · simp [restorePaths, addDir, hex, hdir, eraseSubdirs]
  · cases hex : (fs.fileInfo fs.homeLocation).pathExists with
    | false =>
      have := addDir_of_not_exists fs [] fs.homeLocation hex
      simp only [restorePaths, this]
      exact ⟨trivial, rfl, rfl⟩
    | true =>
      cases hdir : (fs.fileInfo fs.homeLocation).isDir with
      | false =>
        have := addDir_of_not_dir fs [] fs.homeLocation hex hdir
        simp only [restorePaths, this]
        exact ⟨trivial, rfl, rfl⟩
      | true => exact absurd ⟨hex, hdir⟩ h

/-- Witness of C6, amended: the home location /home/u is a directory and
replaces the roots [/srv, /opt]. -/
theorem restorePaths_sole_home_witness :
    (allDirs.fileInfo allDirs.homeLocation).pathExists = true
    ∧ (allDirs.fileInfo allDirs.homeLocation).isDir = true
    ∧ restorePaths allDirs ["/srv".toList, "/opt".toList]
        = ⟨["/home/u".toList], [Effect.rootDirsChanged ["/home/u".toList]]⟩ :=
  ⟨rfl, rfl, (restorePaths_sole_home allDirs ["/srv".toList, "/opt".toList]).1 rfl rfl⟩

/-! ## The root set over sequences of calls -/

theorem isSubdirOf_self (p : QString) : isSubdirOf p p = false := by
  rw [isSubdirOf_eq_false_iff]
  intro h
  have := h.length_le
  simp at this

theorem noOverlap_addDir (fs : FileSystem) (rootDirs : List QString) (dirPath : QString)
    (h : NoOverlap rootDirs) : NoOverlap (addDir fs rootDirs dirPath).rootDirs := by
  cases hex : (fs.fileInfo dirPath).pathExists with
  | false => rw [addDir_of_not_exists fs rootDirs dirPath hex]; exact h
  | true =>
    cases hdir : (fs.fileInfo dirPath).isDir with
    | false => rw [addDir_of_not_dir fs rootDirs dirPath hex hdir]; exact h
    | true =>
      by_cases hmem : (fs.fileInfo dirPath).absoluteFilePath ∈ rootDirs
      · rw [addDir_of_mem fs rootDirs dirPath hex hdir hmem]; exact h
      · cases hfind : rootDirs.find?
            (fun p => isSubdirOf (fs.fileInfo dirPath).absoluteFilePath p) with
        | some p => rw [addDir_of_subdir fs rootDirs dirPath p hex hdir hmem hfind]; exact h
        | none =>
          rw [addDir_of_accepted fs rootDirs dirPath hex hdir hmem hfind]
          have hnone : ∀ p ∈ rootDirs,
              isSubdirOf (fs.fileInfo dirPath).absoluteFilePath p = false := by
            intro p hp
            exact (isSubdirOf_eq_false_iff _ _).2 ((find_subdir_eq_none_iff _ _).1 hfind p hp)
          constructor
          · refine List.Nodup.append (h.1.filter _) (List.nodup_singleton _) ?_
            intro x hx hx'
            rw [List.mem_singleton] at hx'
            subst hx'
            exact hmem (List.mem_of_mem_filter hx)
          · intro p hp q hq
            simp only [List.mem_append, List.mem_filter, List.mem_singleton] at hp hq
            rcases hp with ⟨hp, _⟩ | rfl
            · rcases hq with ⟨hq, _⟩ | rfl
              · exact h.2 p hp q hq
              · exact hnone p hp
            · rcases hq with ⟨_, hq⟩ | rfl
              · simpa using hq
              · exact isSubdirOf_self _

theorem noOverlap_removeDir (fs : FileSystem) (rootDirs : List QString) (dirPath : QString)
    (h : NoOverlap rootDirs) : NoOverlap (removeDir fs rootDirs dirPath).rootDirs := by
  by_cases hc : (!rootDirs.contains (fs.fileInfo dirPath).absoluteFilePath) = true
  · have : removeDir fs rootDirs dirPath = ⟨rootDirs, []⟩ := by
      simp only [removeDir, hc, if_true]
    rw [this]; exact h
  · have : (removeDir fs rootDirs dirPath).rootDirs
        = rootDirs.filter (fun x => x != (fs.fileInfo dirPath).absoluteFilePath) := by
      simp only [removeDir, hc]
      rfl
    rw [this]
    exact ⟨h.1.filter _, fun p hp q hq =>
      h.2 p (List.mem_of_mem_filter hp) q (List.mem_of_mem_filter hq)⟩

theorem noOverlap_foldl (fs : FileSystem) (ops : List RootOp) :
    ∀ rootDirs, NoOverlap rootDirs → NoOverlap (ops.foldl (applyOp fs) rootDirs) := by
  induction ops with
  | nil => intro r h; exact h
  | cons op rest ih =>
    intro r h
    rw [List.foldl_cons]
    apply ih
    cases op with
    | add d => exact noOverlap_addDir fs r d h
    | remove d => exact noOverlap_removeDir fs r d h

theorem specBoundarySegment_iff_of_no_slash (p q : QString)
    (hp : p.getLast? ≠ some '/') :
    specIsBoundarySegment p q = true ↔ isSubdirOf q p = true := by
  rw [isSubdirOf_iff]
  constructor
  · intro h
    simp only [specIsBoundarySegment, Bool.and_eq_true, Bool.or_eq_true,
      List.isPrefixOf_iff_prefix, beq_iff_eq] at h
    obtain ⟨⟨⟨t, rfl⟩, _⟩, h3⟩ := h
    rcases h3 with h3 | h3
    · exact absurd h3 hp
    · rw [List.drop_left] at h3
      cases t with
      | nil => simp at h3
      | cons c t =>
        simp only [List.head?_cons, Option.some.injEq] at h3
        subst h3
        exact ⟨t, by simp⟩
  · rintro ⟨t, rfl⟩
    simp [specIsBoundarySegment]

/-- What the code does keep over every sequence of `addDir` and `removeDir`
calls from the empty root set: no root occurs twice, no root starts with
another root followed by a slash, and so no root that does not itself end in
a slash is an initial segment of another root on a directory boundary. -/
theorem runOps_no_overlap (fs : FileSystem) (ops : List RootOp) :
    (runOps fs ops).Nodup
    ∧ (∀ p ∈ runOps fs ops, ∀ q ∈ runOps fs ops, ¬ (p ++ ['/']) <+: q)
    ∧ (∀ p ∈ runOps fs ops, ∀ q ∈ runOps fs ops, p.getLast? ≠ some '/' →
        specIsBoundarySegment p q = false) := by
  have h : NoOverlap (runOps fs ops) :=
    noOverlap_foldl fs ops [] ⟨List.nodup_nil, fun p hp => absurd hp (List.not_mem_nil p)⟩
  refine ⟨h.1, fun p hp q hq => (isSubdirOf_eq_false_iff _ _).1 (h.2 p hp q hq),
    fun p hp q hq hlast => ?_⟩
  have := h.2 p hp q hq
  cases hb : specIsBoundarySegment p q with
  | false => rfl
  | true =>
    rw [(specBoundarySegment_iff_of_no_slash p q hlast).1 hb] at this
    exact absurd this (by simp)

/-- C1 fails on the file system root: after `addDir("/")` and `addDir("/home")`
from the empty root set both stay in the root set although / lies above /home
(as directories and as text on a directory boundary); in the other order
/home is not dropped when / is added.  The test `startsWith(p + '/')` looks
for "//" when `p` is "/". -/
theorem rootDirs_overlap_at_root :
    runOps allDirs [RootOp.add "/".toList, RootOp.add "/home".toList]
        = ["/".toList, "/home".toList]
    ∧ runOps allDirs [RootOp.add "/home".toList, RootOp.add "/".toList]
        = ["/home".toList, "/".toList]
    ∧ specIsAncestorDir "/".toList "/home".toList = true
    ∧ specIsBoundarySegment "/".toList "/home".toList = true
    ∧ isSubdirOf "/home".toList "/".toList = false := by
  decide

/-- What the superdirectory loop does in the words of the data model, for a
path `a` that does not end in a slash: the roots that stay are exactly those of
which `a` is not an initial segment on a directory boundary, followed by `a`,
and the warnings are for exactly the roots of which it is one. -/
theorem addDir_prunes_below_slashless (fs : FileSystem) (rootDirs : List QString)
    (dirPath : QString)
    (hex : (fs.fileInfo dirPath).pathExists = true)
    (hdir : (fs.fileInfo dirPath).isDir = true)
    (hmem : (fs.fileInfo dirPath).absoluteFilePath ∉ rootDirs)
    (hsub : ∀ p ∈ rootDirs, ¬ (p ++ ['/']) <+: (fs.fileInfo dirPath).absoluteFilePath)
    (hlast : (fs.fileInfo dirPath).absoluteFilePath.getLast? ≠ some '/') :
    addDir fs rootDirs dirPath
      = ⟨rootDirs.filter
            (fun x => !specIsBoundarySegment (fs.fileInfo dirPath).absoluteFilePath x)
          ++ [(fs.fileInfo dirPath).absoluteFilePath],
         (rootDirs.filter
            (fun x => specIsBoundarySegment (fs.fileInfo dirPath).absoluteFilePath x)).map
            (fun x => warning (msgWillBeRemoved x (fs.fileInfo dirPath).absoluteFilePath))
          ++ [Effect.rootDirsChanged
            (rootDirs.filter
                (fun x => !specIsBoundarySegment (fs.fileInfo dirPath).absoluteFilePath x)
              ++ [(fs.fileInfo dirPath).absoluteFilePath])]⟩ := by
  have hfind := (find_subdir_eq_none_iff _ _).2 hsub
  rw [addDir_of_accepted fs rootDirs dirPath hex hdir hmem hfind]
  have e : (fun x => specIsBoundarySegment (fs.fileInfo dirPath).absoluteFilePath x)
      = (fun it => isSubdirOf it (fs.fileInfo dirPath).absoluteFilePath) := by
    funext x
    exact Bool.eq_iff_iff.2 (specBoundarySegment_iff_of_no_slash _ x hlast)
  have e' : (fun x => !specIsBoundarySegment (fs.fileInfo dirPath).absoluteFilePath x)
      = (fun it => !isSubdirOf it (fs.fileInfo dirPath).absoluteFilePath) := by
    funext x
    rw [congrFun e x]
  rw [e, e']

/-- C4 fails on the file system root: / passes the duplicate and the
subdirectory check against the roots [/home], and /home is a strict sub-path
of / (as directories and as text on a directory boundary), yet `addDir("/")`
drops nothing and warns of nothing: the root set becomes [/home, /].  The
loop tests `startsWith(absPath + '/')`, which is "//" here.  For /home added
to the roots [/home/u] the loop does what the claim says, with the warning
text naming /home/u. -/
theorem addDir_root_prunes_nothing :
    (allDirs.fileInfo "/".toList).pathExists = true
    ∧ (allDirs.fileInfo "/".toList).isDir = true
    ∧ (allDirs.fileInfo "/".toList).absoluteFilePath ∉ ["/home".toList]
    ∧ (∀ p ∈ ["/home".toList],
        ¬ (p ++ ['/']) <+: (allDirs.fileInfo "/".toList).absoluteFilePath)
    ∧ specIsAncestorDir "/".toList "/home".toList = true
    ∧ specIsBoundarySegment "/".toList "/home".toList = true
    ∧ addDir allDirs ["/home".toList] "/".toList
        = ⟨["/home".toList, "/".toList],
           [Effect.rootDirsChanged ["/home".toList, "/".toList]]⟩
    ∧ addDir allDirs ["/home/u".toList] "/home".toList
        = ⟨["/home".toList],
           [Effect.messageBox Icon.Warning "Warning".toList
              "/home/u is subdirectory of /home. /home/u will be removed.".toList,
            Effect.rootDirsChanged ["/home".toList]]⟩ := by
  decide

/-! ## Scan scheduling -/

theorem abortAndConnect_id (w : Nat) (x : ScanWorker) : (abortAndConnect w x).id = x.id := by
  unfold abortAndConnect
  split <;> rfl

theorem pointerTracksPool_updateIndex (s : Extension) (h : PointerTracksPool s) :
    PointerTracksPool (updateIndex s) := by
  rcases h with ⟨h1, h2⟩ | ⟨w, h1, h2⟩
  · right
    exact ⟨⟨s.constructed, s.rootDirs, false, 0⟩, by simp [updateIndex, h1],
      by simp [updateIndex, h1, h2]⟩
  · right
    refine ⟨abortAndConnect w.id w, ?_, ?_⟩
    · simp [updateIndex, h1, abortAndConnect_id]
    · simp [updateIndex, h1, h2]

theorem pointerTracksPool_destroyWorker (s : Extension) (i : Nat)
    (h : PointerTracksPool s) : PointerTracksPool (destroyWorker s i) := by
  rcases h with ⟨h1, h2⟩ | ⟨w, h1, h2⟩
  · left
    simp [destroyWorker, h1, h2]
  · by_cases hi : w.id = i
    · left
      simp [destroyWorker, h1, h2, hi]
    · right
      refine ⟨w, ?_, ?_⟩ <;> simp [destroyWorker, h1, h2, hi]

theorem pointerTracksPool_deliverQueued (s : Extension) (h : PointerTracksPool s) :
    PointerTracksPool (deliverQueued s) := by
  unfold deliverQueued
  split
  · exact h
  · exact pointerTracksPool_updateIndex _ h

theorem pointerTracksPool_step (s : Extension) (e : Event) (h : PointerTracksPool s) :
    PointerTracksPool (step s e) := by
  cases e with
  | updateRequest => exact pointerTracksPool_updateIndex s h
  | workerDestroyed w => exact pointerTracksPool_destroyWorker s w h
  | runQueued => exact pointerTracksPool_deliverQueued s h

theorem pointerTracksPool_run (evs : List Event) :
    ∀ s, PointerTracksPool s → PointerTracksPool (run s evs) := by
  induction evs with
  | nil => intro s h; exact h
  | cons e rest ih =>
    intro s h
    exact ih (step s e) (pointerTracksPool_step s e h)

/-- C7: in every state reached from the initial one by update requests, worker
teardowns and runs of posted `updateIndex` invocations, at most one scan worker
is live.  In such a state `updateIndex` constructs and starts a worker exactly
when none is live (the pool then holds that one new worker, not aborted); when
one is live it constructs nothing, the pool keeps its one worker, and that
worker has its abort requested. -/
theorem single_flight (rootDirs : List QString) (timer : QTimer) (evs : List Event) :
    (run (initial rootDirs timer) evs).threadPool.length ≤ 1
    ∧ ((run (initial rootDirs timer) evs).threadPool = [] →
        (updateIndex (run (initial rootDirs timer) evs)).threadPool
          = [⟨(run (initial rootDirs timer) evs).constructed,
              (run (initial rootDirs timer) evs).rootDirs, false, 0⟩]
        ∧ (updateIndex (run (initial rootDirs timer) evs)).constructed
          = (run (initial rootDirs timer) evs).constructed + 1)
    ∧ ((run (initial rootDirs timer) evs).threadPool ≠ [] →
        (updateIndex (run (initial rootDirs timer) evs)).constructed
          = (run (initial rootDirs timer) evs).constructed
        ∧ (updateIndex (run (initial rootDirs timer) evs)).threadPool.map ScanWorker.id
          = (run (initial rootDirs timer) evs).threadPool.map ScanWorker.id
        ∧ ∀ w ∈ (updateIndex (run (initial rootDirs timer) evs)).threadPool,
            w.abortRequested = true) := by
  have h : PointerTracksPool (run (initial rootDirs timer) evs) :=
    pointerTracksPool_run evs _ (Or.inl ⟨rfl, rfl⟩)
  rcases h with ⟨h1, h2⟩ | ⟨w, h1, h2⟩
  · refine ⟨by simp [h2], fun _ => ?_, fun hne => absurd h2 hne⟩
    simp [updateIndex, h1, h2]
  · refine ⟨by simp [h2], fun he => ?_, fun _ => ?_⟩
    · rw [h2] at he; exact absurd he (by simp)
    · simp [updateIndex, h1, h2, abortAndConnect]

theorem run_append (s : Extension) (xs ys : List Event) :
    run s (xs ++ ys) = run (run s xs) ys := by
  simp [run, List.foldl_append]

theorem run_requests_live (k : Nat) :
    ∀ (s : Extension) (x : ScanWorker), s.scanWorker = some x.id → s.threadPool = [x] →
      run s (List.replicate (k + 1) Event.updateRequest)
        = { s with threadPool := [{ x with abortRequested := true,
                                           destroyedToUpdateIndex := x.destroyedToUpdateIndex + (k + 1) }] } := by
  induction k with
  | zero =>
    intro s x h1 h2
    simp [run, step, updateIndex, h1, h2, abortAndConnect]
  | succ k ih =>
    intro s x h1 h2
    rw [List.replicate_succ]
    show run (step s Event.updateRequest) _ = _
    have hs : step s Event.updateRequest
        = { s with threadPool := [{ x with abortRequested := true,
                                           destroyedToUpdateIndex := x.destroyedToUpdateIndex + 1 }] } := by
      simp [step, updateIndex, h1, h2, abortAndConnect]
    rw [hs, ih { s with threadPool := [{ x with abortRequested := true,
                                                destroyedToUpdateIndex := x.destroyedToUpdateIndex + 1 }] }
          { x with abortRequested := true,
                   destroyedToUpdateIndex := x.destroyedToUpdateIndex + 1 } h1 rfl]
    simp only [Extension.mk.injEq, List.cons.injEq, ScanWorker.mk.injEq, and_true, true_and]
    omega

theorem run_queued_live (k : Nat) :
    ∀ (s : Extension) (x : ScanWorker), s.scanWorker = some x.id → s.threadPool = [x] →
      k + 1 ≤ s.queued →
      run s (List.replicate (k + 1) Event.runQueued)
        = { s with queued := s.queued - (k + 1),
                   threadPool := [{ x with abortRequested := true,
                                           destroyedToUpdateIndex := x.destroyedToUpdateIndex + (k + 1) }] } := by
  induction k with
  | zero =>
    intro s x h1 h2 hq
    have hq0 : s.queued ≠ 0 := by omega
    simp [run, step, deliverQueued, hq0, updateIndex, h1, h2, abortAndConnect]
  | succ k ih =>
    intro s x h1 h2 hq
    rw [List.replicate_succ]
    show run (step s Event.runQueued) _ = _
    have hq0 : s.queued ≠ 0 := by omega
    have hs : step s Event.runQueued
        = { s with queued := s.queued - 1,
                   threadPool := [{ x with abortRequested := true,
                                           destroyedToUpdateIndex := x.destroyedToUpdateIndex + 1 }] } := by
      simp [step, deliverQueued, hq0, updateIndex, h1, h2, abortAndConnect]
    rw [hs, ih { s with queued := s.queued - 1,
                        threadPool := [{ x with abortRequested := true,
                                                destroyedToUpdateIndex := x.destroyedToUpdateIndex + 1 }] }
          { x with abortRequested := true,
                   destroyedToUpdateIndex := x.destroyedToUpdateIndex + 1 } h1 rfl
          (by show k + 1 ≤ s.queued - 1; omega)]
    simp only [Extension.mk.injEq, List.cons.injEq, ScanWorker.mk.injEq, and_true, true_and]
    omega

/-- What the code does with `k + 2` requests that arrive during a scan: the
teardown posts `k + 2` invocations of `updateIndex`; the first starts worker 1,
each further one requests its abort and connects its `destroyed` signal once
more, so worker 1 ends up aborted with `k + 1` restarts pending on it. -/
theorem restartScenario_aborts_new_scan (rootDirs : List QString) (timer : QTimer) (k : Nat) :
    (run (initial rootDirs timer) (restartScenario (k + 2))).threadPool
        = [⟨1, rootDirs, true, k + 1⟩]
    ∧ (run (initial rootDirs timer) (restartScenario (k + 2))).constructed = 2
    ∧ (run (initial rootDirs timer) (restartScenario (k + 2))).queued = 0 := by
  have e : run (initial rootDirs timer) (restartScenario (k + 2))
      = ⟨rootDirs, some 1, timer.start.start, [⟨1, rootDirs, true, k + 1⟩], 2, 0⟩ := by
    unfold restartScenario
    show run (step (initial rootDirs timer) Event.updateRequest) _ = _
    rw [run_append]
    have h0 : step (initial rootDirs timer) Event.updateRequest
        = ⟨rootDirs, some 0, timer.start, [⟨0, rootDirs, false, 0⟩], 1, 0⟩ := by
      simp [step, updateIndex, initial]
    rw [h0, run_requests_live (k + 1) _ ⟨0, rootDirs, false, 0⟩ rfl rfl]
    show run (step _ (Event.workerDestroyed 0)) _ = _
    have h1 : step ({ (⟨rootDirs, some 0, timer.start, [⟨0, rootDirs, false, 0⟩], 1, 0⟩ : Extension)
          with threadPool := [{ (⟨0, rootDirs, false, 0⟩ : ScanWorker) with
            abortRequested := true, destroyedToUpdateIndex := 0 + (k + 1 + 1) }] })
          (Event.workerDestroyed 0)
        = ⟨rootDirs, none, timer.start, [], 1, k + 2⟩ := by
      simp [step, destroyWorker]
    rw [h1, List.replicate_succ]
    show run (step _ Event.runQueued) _ = _
    have h2 : step (⟨rootDirs, none, timer.start, [], 1, k + 2⟩ : Extension) Event.runQueued
        = ⟨rootDirs, some 1, timer.start.start, [⟨1, rootDirs, false, 0⟩], 2, k + 1⟩ := by
      simp [step, deliverQueued, updateIndex]
    rw [h2, run_queued_live k _ ⟨1, rootDirs, false, 0⟩ rfl rfl (by simp)]
    simp
  rw [e]
  exact ⟨rfl, rfl, rfl⟩

/-- One request during a scan: after the teardown exactly one new worker is
started and it is not aborted. -/
theorem restartScenario_one (rootDirs : List QString) (timer : QTimer) :
    run (initial rootDirs timer) (restartScenario 1)
      = ⟨rootDirs, some 1, timer.start.start, [⟨1, rootDirs, false, 0⟩], 2, 0⟩ := by
  simp [restartScenario, run, step, updateIndex, initial, destroyWorker, deliverQueued,
    abortAndConnect]

/-- C8 fails for two requests during a scan: after the teardown of worker 0 the
two posted invocations run; the first starts worker 1, the second requests the
abort of worker 1 and connects its `destroyed` signal, so the new scan is
aborted by a queued request and a third worker is started when it has torn
down: two scans are started after the teardown, not one. -/
theorem restart_not_collapsed :
    (run (initial ["/home".toList] ⟨60000, false⟩) (restartScenario 2)).threadPool
        = [⟨1, ["/home".toList], true, 1⟩]
    ∧ (run (initial ["/home".toList] ⟨60000, false⟩)
          (restartScenario 2 ++ [Event.workerDestroyed 1, Event.runQueued])).threadPool
        = [⟨2, ["/home".toList], false, 0⟩]
    ∧ (run (initial ["/home".toList] ⟨60000, false⟩)
          (restartScenario 2 ++ [Event.workerDestroyed 1, Event.runQueued])).constructed
        = 3 := by
  decide

/-! ## The scan interval -/

/-- What the code does for intervals whose millisecond value fits a C++ `int`:
for 0 < n ≤ 35791 minutes the timer runs with n * 60000 ms and the stored
interval reads back n; for 0 the timer is stopped and keeps its interval. -/
theorem setScanInterval_in_range (s : Extension) (n : Nat) :
    (0 < n → n ≤ 35791 →
      (setScanInterval s n).intervalTimer = ⟨(n : Int) * 60000, true⟩
      ∧ storedScanInterval (setScanInterval s n) = (n : Int))
    ∧ (setScanInterval s 0).intervalTimer = ⟨s.intervalTimer.interval, false⟩ := by
  refine ⟨fun h0 h1 => ?_, by simp [setScanInterval, QTimer.stop]⟩
  have hmod : n % 2 ^ 32 ≠ 0 := by
    rw [Nat.mod_eq_of_lt (by omega)]; omega
  have hsmall : n * 60000 < 2 ^ 31 := by omega
  have hmm : n * 60000 % 2 ^ 32 = n * 60000 := Nat.mod_eq_of_lt (by omega)
  have hms : minutesToMsec n = n * 60000 := hmm
  have hlt : n * 60000 % 2 ^ 32 < 2 ^ 31 := by rw [hmm]; exact hsmall
  have hint : uintToInt (minutesToMsec n) = (n : Int) * 60000 := by
    rw [hms]; unfold uintToInt; rw [if_pos hlt, hmm]; push_cast; ring
  have e : (setScanInterval s n).intervalTimer = ⟨(n : Int) * 60000, true⟩ := by
    simp only [setScanInterval, hmod, if_false, QTimer.startMsec, hint]
    have : (0 : Int) ≤ (n : Int) * 60000 := by positivity
    simp [this]
  refine ⟨e, ?_⟩
  unfold storedScanInterval
  rw [e]
  show Int.tdiv ((n : Int) * 60000) 60000 = n
  rw [Int.mul_tdiv_cancel _ (by norm_num)]

/-- C9 fails where `minutes*60000` leaves 32 bits: `setScanInterval(71583)`
starts the timer with 12704 ms, not 71583 minutes, and the stored interval
reads back 0; at 35792 the product no longer fits an `int`.  After
`setScanInterval(0)` the timer is stopped, and the next `updateIndex` that
starts a scan starts the timer again. -/
theorem setScanInterval_wraps :
    (setScanInterval (initial [] ⟨60000, true⟩) 71583).intervalTimer = ⟨12704, true⟩
    ∧ storedScanInterval (setScanInterval (initial [] ⟨60000, true⟩) 71583) = 0
    ∧ (setScanInterval (initial [] ⟨60000, true⟩) 35792).intervalTimer
        = ⟨-2147447296, false⟩
    ∧ (setScanInterval (initial [] ⟨60000, true⟩) 0).intervalTimer = ⟨60000, false⟩
    ∧ (updateIndex (setScanInterval (initial [] ⟨60000, true⟩) 0)).intervalTimer
        = ⟨60000, true⟩ := by
  decide

end Files
